import Mathlib

/-!
Verification of `tensorpack/dataflow/prefetch.py`: the prefetching
coordinators (`PrefetchData`, `PrefetchDataZMQ`), their worker processes
(`PrefetchProcess`, `PrefetchProcessZMQ`), and the teardown routine
(`PrefetchDataZMQ.__del__`), shallowly embedded as executable Lean
definitions.  Definitions come first, with each source construct quoted in
its doc comment; the theorems after them settle the specified properties.
-/

namespace Prefetch

/-! ## The record stream of `get_data`

Both `PrefetchData.get_data` and `PrefetchDataZMQ.get_data` run the same
loop:

    for k in itertools.count():
        if self._size > 0 and k >= self._size:
            break
        dp = <read one record from the transport>
        yield dp

`self._size` is an `Int`: it is `ds.size()` when the source pipeline
supports it and the sentinel `-1` otherwise.  The transport read is
modelled as a supply function `Nat → α` giving the record obtained by the
k-th successful read (for `PrefetchData` a `queue.get()`, for
`PrefetchDataZMQ` a `loads(socket.recv())`). -/

/-- The k-th pull of the generator produced by `get_data`: `none` when the
loop has broken (stream stopped), `some` of the record read otherwise.
Pull `k` breaks exactly when `size > 0 ∧ k ≥ size`, mirroring
`if self._size > 0 and k >= self._size: break`. -/
def getDataNth (size : Int) (supply : Nat → α) (k : Nat) : Option α :=
  if 0 < size ∧ size ≤ (k : Int) then none else some (supply k)

/-- The records obtained by attempting the first `n` pulls of `get_data`
(pulls past the break point contribute nothing). -/
def getDataList (size : Int) (supply : Nat → α) (n : Nat) : List α :=
  (List.range n).filterMap (getDataNth size supply)

/-- The stored `self._size`: `ds.size()` when the pipeline supports the
query, `-1` (`except NotImplementedError`) otherwise. -/
def sizeFromQuery (q : Option Nat) : Int :=
  match q with
  | some n => (n : Int)
  | none => -1

/-! ## The worker loop of `PrefetchProcess.run` / `PrefetchProcessZMQ.run`

    def run(self):
        self.ds.reset_state()
        while True:
            for dp in self.ds.get_data():
                self.queue.put(dp)        # (ZMQ: self.socket.send(dumps(dp)))

The source pipeline is modelled by the list `pass` of records one pass of
`ds.get_data()` yields.  The run is a step machine: each step either
performs the one-time `reset_state`, writes the next record of the current
pass to the endpoint, or — when the pass is exhausted — silently restarts
the `for` loop at a new pass (the `while True` has no exit, so the machine
has a successor for every state).  `PrefetchProcessZMQ.run` additionally
opens its socket between the reset and the loop, which does not change the
order of reset and write events. -/

/-- Observable event of one worker step. -/
inductive WEvent (α : Type) where
  | reset : WEvent α
  | write : α → WEvent α
deriving DecidableEq, Repr

/-- Worker control state: whether `reset_state` has run, and the index of
the next record of the current pass. -/
structure WorkerState where
  started : Bool
  pos : Nat
deriving DecidableEq, Repr

def workerInit : WorkerState := ⟨false, 0⟩

/-- One step of the worker loop. -/
def workerStep (pass : List α) (s : WorkerState) :
    WorkerState × Option (WEvent α) :=
  if s.started = false then
    (⟨true, 0⟩, some WEvent.reset)
  else if h : s.pos < pass.length then
    (⟨true, s.pos + 1⟩, some (WEvent.write (pass.get ⟨s.pos, h⟩)))
  else
    (⟨true, 0⟩, none)

/-- The worker state after `n` steps from process start. -/
def workerRun (pass : List α) : Nat → WorkerState
  | 0 => workerInit
  | n + 1 => (workerStep pass (workerRun pass n)).1

/-- The event emitted by step `n`. -/
def workerOut (pass : List α) (n : Nat) : Option (WEvent α) :=
  (workerStep pass (workerRun pass n)).2

/-- The records written to the endpoint during the first `n` steps, in
order. -/
def workerWrites (pass : List α) (n : Nat) : List α :=
  (List.range n).filterMap (fun j =>
    match workerOut pass j with
    | some (WEvent.write r) => some r
    | _ => none)

/-- The spec-side comparand for the refinement claim, following the spec's
words: the records the source pipeline itself would produce in one direct
pass, in its native order. -/
def directPassRecords (pass : List α) : List α := pass

/-! ## The queue transport of `PrefetchData`

`self.queue = multiprocessing.Queue(self.nr_prefetch)`: a bounded FIFO
whose capacity is the construction argument.  `queue.put` blocks while
`cap` records are in flight, `queue.get` blocks while the queue is empty;
a blocked call is modelled as the absence of a completed step. -/

structure BoundedQueue (α : Type) where
  cap : Nat
  buf : List α
deriving DecidableEq, Repr

/-- The `queue.put(dp)` call: completes only while fewer than `cap`
records are in flight; otherwise the caller blocks. -/
def qput (s : BoundedQueue α) (r : α) : Option (BoundedQueue α) :=
  if s.buf.length < s.cap then some ⟨s.cap, s.buf ++ [r]⟩ else none

/-- The `queue.get()` call: completes only while the queue is nonempty. -/
def qget (s : BoundedQueue α) : Option (BoundedQueue α × α) :=
  match s.buf with
  | [] => none
  | r :: rest => some (⟨s.cap, rest⟩, r)

inductive QOp (α : Type) where
  | put : α → QOp α
  | get : QOp α

/-- Run a sequence of queue operations; a blocked operation leaves the
queue unchanged (its caller is still waiting). -/
def qrun (s : BoundedQueue α) : List (QOp α) → BoundedQueue α
  | [] => s
  | op :: rest =>
    match op with
    | QOp.put r =>
      match qput s r with
      | some s2 => qrun s2 rest
      | none => qrun s rest
    | QOp.get =>
      match qget s with
      | some p => qrun p.1 rest
      | none => qrun s rest

/-- The coordinator record built by `PrefetchData.__init__`: `_size` from
`ds.size()` (falling back to `-1`), `nr_proc`, and the transport
`multiprocessing.Queue(nr_prefetch)` whose capacity is the construction
argument. -/
structure PrefetchDataM (α : Type) where
  size : Int
  nrProc : Nat
  queue : BoundedQueue α
deriving Repr

def mkPrefetchData (α : Type) (sizeQuery : Option Nat)
    (nrPrefArg nrProcArg : Nat) : PrefetchDataM α :=
  { size := sizeFromQuery sizeQuery
    nrProc := nrProcArg
    queue := ⟨nrPrefArg, []⟩ }

/-! ## `PrefetchDataZMQ.__init__`: endpoint naming and the directory assert

    assert os.path.isdir(pipedir)
    self.pipename = "ipc://{}/dataflow-pipe-".format(pipedir.rstrip('/')) \
        + str(uuid.uuid1())[:6]

The `uuid.uuid1()` value is modelled as an arbitrary input string; only its
first six characters enter the address. -/

/-- Python `pipedir.rstrip('/')`: drop trailing slash characters. -/
def rstripSlash (s : String) : String :=
  String.mk (((s.data.reverse).dropWhile (fun c => c = '/')).reverse)

/-- The generated IPC endpoint address of one coordinator instance, as a
function of the construction argument `pipedir` and the freshly generated
uuid string. -/
def mkPipeName (pipedir : String) (uuidStr : String) : String :=
  "ipc://" ++ rstripSlash pipedir ++ "/dataflow-pipe-" ++ uuidStr.take 6

inductive InitError where
  | assertionFailed : InitError
deriving DecidableEq, Repr

/-- The coordinator record built by `PrefetchDataZMQ.__init__`. -/
structure PrefetchDataZMQM where
  size : Int
  nrProc : Nat
  pipeName : String
  hwm : Nat
  procsStarted : Nat
deriving DecidableEq, Repr

/-- Constructor `PrefetchDataZMQ.__init__`: reads `ds.size()` (falling
back to `-1`) and opens the context/socket, then
`assert os.path.isdir(pipedir)` — a fatal `AssertionError` when the
directory is missing, raised before the endpoint is bound and before any
worker process is created or started.  On success it binds the generated
address with `set_hwm(5)` and starts `nr_proc` workers. -/
def mkPrefetchDataZMQ (sizeQuery : Option Nat) (nrProcArg : Nat)
    (pipedir : String) (dirIsDir : Bool) (uuidStr : String) :
    Except InitError PrefetchDataZMQM :=
  if dirIsDir then
    Except.ok
      { size := sizeFromQuery sizeQuery
        nrProc := nrProcArg
        pipeName := mkPipeName pipedir uuidStr
        hwm := 5
        procsStarted := nrProcArg }
  else
    Except.error InitError.assertionFailed

/-! ## `PrefetchDataZMQ.__del__`: the release routine

    def __del__(self):
        try:
            logger.info("Prefetch process exiting...")
        except:
            pass
        if not self.context.closed:
            self.context.destroy(0)
        for x in self.procs:
            x.terminate()
        try:
            logger.info("Prefetch process exited.")
        except:
            pass

It is reached from explicit deletion and from the `atexit` hook registered
at construction (`atexit.register(lambda x: x.__del__(), self)`), both
running the same routine.  `loggerOk` says whether the logging calls
succeed; `terminate` on an already-dead process is a no-op. -/

/-- The externally visible resources the routine touches. -/
structure ZMQRes where
  contextClosed : Bool
  procsAlive : List Bool
  loggerOk : Bool
  hwm : Nat
deriving DecidableEq, Repr

/-- Teardown side effects, in order of occurrence. -/
inductive TAction where
  | logTry : TAction
  | destroy : Nat → TAction
  | terminate : Nat → TAction
deriving DecidableEq, Repr

/-- A `logger.info` call that may raise when logging is already torn
down. -/
def tryLogInfo (ok : Bool) : Except Unit Unit :=
  if ok then Except.ok () else Except.error ()

/-- The routine `PrefetchDataZMQ.__del__`, returning the updated resources
and the trace of performed side effects. -/
def delZMQ (s : ZMQRes) : ZMQRes × List TAction :=
  let _ : Unit :=
    match tryLogInfo s.loggerOk with
    | Except.ok _ => ()
    | Except.error _ => ()
  let destroyed : List TAction × ZMQRes :=
    if s.contextClosed then ([], s)
    else ([TAction.destroy 0], { s with contextClosed := true })
  let termActs : List TAction :=
    (List.range s.procsAlive.length).map TAction.terminate
  let s2 : ZMQRes :=
    { destroyed.2 with procsAlive := destroyed.2.procsAlive.map (fun _ => false) }
  let _ : Unit :=
    match tryLogInfo s2.loggerOk with
    | Except.ok _ => ()
    | Except.error _ => ()
  (s2, TAction.logTry :: (destroyed.1 ++ termActs ++ [TAction.logTry]))

/-! ## Worker ownership of the source pipeline

`self.procs = [PrefetchProcess(self.ds, self.queue) for _ in
range(self.nr_proc)]` hands the coordinator's pipeline to each of the
`nr_proc` worker objects; starting a `multiprocessing.Process` gives the
child its own address-space copy of that pipeline, so each started worker
owns a separate instance, and the `reset_state` at the top of its `run`
touches only its own copy. -/

/-- The source pipeline as owned mutable state: an internal RNG/state seed
(the part `reset_state` touches, "so each process will produce different
data") and the records of one pass. -/
structure DataFlowM (α : Type) where
  rngSeed : Nat
  pass : List α
deriving DecidableEq, Repr

/-- The external pipeline interface's `reset_state`: re-initialize
internal/random state with the fresh per-process seed. -/
def resetState (fresh : Nat) (d : DataFlowM α) : DataFlowM α :=
  { d with rngSeed := fresh }

/-- One worker process and the pipeline copy it owns. -/
structure PrefetchProcessM (α : Type) where
  ds : DataFlowM α
deriving DecidableEq, Repr

/-- The `nr_proc` started workers, each holding its own copy of the
coordinator's pipeline value. -/
def spawnProcs (ds : DataFlowM α) (n : Nat) : List (PrefetchProcessM α) :=
  List.replicate n ⟨ds⟩

/-- The first action of one worker's `run`: `self.ds.reset_state()`, on
that worker's own copy, with that worker's own fresh seed. -/
def workerStart (fresh : Nat) (w : PrefetchProcessM α) : PrefetchProcessM α :=
  ⟨resetState fresh w.ds⟩

/-- All workers perform their startup reset, worker `i` with its own seed
`seeds (k + i)` (the offset `k` lets the recursion track positions). -/
def startAllFrom (seeds : Nat → Nat) (k : Nat) :
    List (PrefetchProcessM α) → List (PrefetchProcessM α)
  | [] => []
  | w :: ws => workerStart (seeds k) w :: startAllFrom seeds (k + 1) ws

def startAll (seeds : Nat → Nat) (ws : List (PrefetchProcessM α)) :
    List (PrefetchProcessM α) :=
  startAllFrom seeds 0 ws

/-! ## Theorems: the record stream -/

theorem getDataNth_pos {size : Int} (supply : Nat → α)
    (k : Nat) (hk : (k : Int) < size) :
    getDataNth size supply k = some (supply k) := by
  simp [getDataNth, not_le.mpr hk]

theorem getDataNth_stop {size : Int} (h : 0 < size) (supply : Nat → α)
    (k : Nat) (hk : size ≤ (k : Int)) :
    getDataNth size supply k = none := by
  simp [getDataNth, h, hk]

theorem getDataNth_nonpos {size : Int} (h : size ≤ 0) (supply : Nat → α)
    (k : Nat) : getDataNth size supply k = some (supply k) := by
  simp [getDataNth, not_lt.mpr h]

/-- With a positive size `N`, the first `n ≤ N` pulls all yield. -/
theorem getDataList_le {N : Nat} (supply : Nat → α)
    (n : Nat) (hn : n ≤ N) :
    getDataList (N : Int) supply n = (List.range n).map supply := by
  unfold getDataList
  induction n with
  | zero => simp
  | succ m ih =>
    rw [List.range_succ, List.filterMap_append, List.map_append,
        ih (Nat.le_of_succ_le hn)]
    have hm : (m : Int) < (N : Int) := by exact_mod_cast hn
    simp [getDataNth_pos supply m hm]

/-- C1: when the stored count is a known positive integer `N`, `get_data`
yields exactly `N` records (the first `N` reads off the transport, in
order) and every pull from index `N` on returns nothing; when the stored
count is the unknown sentinel `-1`, every pull yields a record. -/
theorem getData_count_semantics (size : Int) (supply : Nat → α) :
    (∀ N : Nat, size = (N : Int) → 0 < N →
      getDataList size supply N = (List.range N).map supply ∧
      (getDataList size supply N).length = N ∧
      ∀ k, N ≤ k → getDataNth size supply k = none) ∧
    (size = -1 → ∀ k, getDataNth size supply k = some (supply k)) := by
  constructor
  · rintro N rfl hN
    refine ⟨getDataList_le supply N le_rfl, ?_, ?_⟩
    · rw [getDataList_le supply N le_rfl]
      simp
    · intro k hk
      exact getDataNth_stop (by exact_mod_cast hN) supply k (by exact_mod_cast hk)
  · rintro rfl k
    exact getDataNth_nonpos (by decide) supply k

theorem getData_count_semantics_witness :
    getDataList (3 : Int) (fun k => 10 * k) 3 = [0, 10, 20] ∧
    getDataNth (3 : Int) (fun k => 10 * k) 3 = none ∧
    getDataNth (-1 : Int) (fun k => 10 * k) 7 = some 70 := by
  refine ⟨?_, ?_, ?_⟩
  · have h := ((getData_count_semantics (3 : Int) (fun k => 10 * k)).1 3 rfl
      (by decide)).1
    simpa using h
  · exact ((getData_count_semantics (3 : Int) (fun k => 10 * k)).1 3 rfl
      (by decide)).2.2 3 le_rfl
  · exact (getData_count_semantics (-1 : Int) (fun k => 10 * k)).2 rfl 7

/-- C10: a stored count of exactly `0` does not satisfy the strict
`_size > 0` part of the break condition, so the stream never stops: every
pull behaves exactly as with the unknown sentinel `-1` and yields the next
record read from the transport. -/
theorem getData_zero_size_never_stops (supply : Nat → α) (k : Nat) :
    getDataNth (0 : Int) supply k = some (supply k) ∧
    getDataNth (0 : Int) supply k = getDataNth (-1 : Int) supply k := by
  constructor <;> simp [getDataNth]

/-! ## Theorems: the worker loop -/

theorem workerStep_started (pass : List α) (s : WorkerState) :
    ((workerStep pass s).1).started = true := by
  unfold workerStep
  by_cases h1 : s.started = false
  · simp [h1]
  · by_cases h2 : s.pos < pass.length
    · simp [h1, h2]
    · simp [h1, h2]

theorem workerRun_started (pass : List α) (n : Nat) :
    (workerRun pass (n + 1)).started = true :=
  workerStep_started pass (workerRun pass n)

theorem workerStep_none_state (pass : List α) (s : WorkerState)
    (h : (workerStep pass s).2 = none) : (workerStep pass s).1 = ⟨true, 0⟩ := by
  unfold workerStep at h ⊢
  by_cases h1 : s.started = false
  · simp [h1] at h
  · by_cases h2 : s.pos < pass.length
    · simp [h1, h2] at h
    · simp [h1, h2]

theorem workerStep_write (pass : List α) (s : WorkerState)
    (h1 : s.started = true) (h2 : s.pos < pass.length) :
    (workerStep pass s).2 = some (WEvent.write (pass.get ⟨s.pos, h2⟩)) ∧
    (workerStep pass s).1 = ⟨true, s.pos + 1⟩ := by
  unfold workerStep
  simp [h1, h2]

theorem workerStep_exhausted (pass : List α) (s : WorkerState)
    (h1 : s.started = true) (h2 : ¬ s.pos < pass.length) :
    (workerStep pass s).2 = none := by
  unfold workerStep
  simp [h1, h2]

theorem workerOut_zero (pass : List α) :
    workerOut pass 0 = some WEvent.reset := by
  unfold workerOut workerRun workerInit workerStep
  simp

theorem workerOut_succ_ne_reset (pass : List α) (n : Nat) :
    workerOut pass (n + 1) ≠ some WEvent.reset := by
  intro h
  unfold workerOut at h
  have hs := workerRun_started pass n
  unfold workerStep at h
  rw [hs] at h
  simp only [Bool.true_eq_false, if_false] at h
  split at h <;> simp at h

/-- C3: the worker's `run` resets its pipeline exactly once — at step 0,
before any record is written — and then never terminates on its own: a
write only happens after the reset, exhausting a pass merely restarts the
loop at position 0 (a new pass), and past any step there is always a later
step that writes another record. -/
theorem worker_run_resets_once_loops_forever (pass : List α) (n : Nat) :
    (workerOut pass n = some WEvent.reset ↔ n = 0) ∧
    (∀ r : α, workerOut pass n = some (WEvent.write r) → 0 < n) ∧
    (workerOut pass n = none → workerRun pass (n + 1) = ⟨true, 0⟩) ∧
    (pass ≠ [] → ∃ m, n < m ∧ ∃ r : α, workerOut pass m = some (WEvent.write r)) := by
  refine ⟨?_, ?_, ?_, ?_⟩
  · constructor
    · intro h
      cases n with
      | zero => rfl
      | succ m => exact absurd h (workerOut_succ_ne_reset pass m)
    · rintro rfl
      exact workerOut_zero pass
  · intro r h
    cases n with
    | zero => rw [workerOut_zero pass] at h; simp at h
    | succ m => exact Nat.succ_pos m
  · intro h
    exact workerStep_none_state pass (workerRun pass n) h
  · intro hne
    have hlen : 0 < pass.length := List.length_pos.mpr hne
    have hs1 : (workerRun pass (n + 1)).started = true := workerRun_started pass n
    by_cases hp : (workerRun pass (n + 1)).pos < pass.length
    · exact ⟨n + 1, Nat.lt_succ_self n,
        pass.get ⟨(workerRun pass (n + 1)).pos, hp⟩,
        (workerStep_write pass (workerRun pass (n + 1)) hs1 hp).1⟩
    · have hnone : workerOut pass (n + 1) = none :=
        workerStep_exhausted pass (workerRun pass (n + 1)) hs1 hp
      have hst : workerRun pass (n + 2) = ⟨true, 0⟩ :=
        workerStep_none_state pass (workerRun pass (n + 1)) hnone
      refine ⟨n + 2, by omega, pass.get ⟨0, hlen⟩, ?_⟩
      show (workerStep pass (workerRun pass (n + 2))).2 = _
      rw [hst]
      exact (workerStep_write pass ⟨true, 0⟩ rfl hlen).1

theorem worker_run_resets_once_loops_forever_witness :
    workerOut [true] 0 = some WEvent.reset ∧
    (∃ m, 0 < m ∧ ∃ r : Bool, workerOut [true] m = some (WEvent.write r)) :=
  ⟨(worker_run_resets_once_loops_forever [true] 0).1.mpr rfl,
   (worker_run_resets_once_loops_forever [true] 0).2.2.2 (by simp)⟩

/-! ## Theorems: single-worker refinement (`nr_proc = 1`)

With exactly one worker feeding the FIFO transport, the k-th record the
coordinator reads is the k-th record the worker wrote.  During its first
pass the worker's steps are: step 0 resets, steps `1 .. pass.length` write
`pass` in order. -/

theorem workerRun_first_pass (pass : List α) (j : Nat) (hj : j ≤ pass.length) :
    workerRun pass (1 + j) = ⟨true, j⟩ := by
  induction j with
  | zero =>
    show (workerStep pass workerInit).1 = _
    unfold workerStep workerInit
    simp
  | succ m ih =>
    have hm : m < pass.length := hj
    have h1 : workerRun pass (1 + m) = ⟨true, m⟩ := ih (Nat.le_of_lt hm)
    have : (1 + (m + 1)) = (1 + m) + 1 := by omega
    rw [this]
    show (workerStep pass (workerRun pass (1 + m))).1 = _
    rw [h1]
    exact (workerStep_write pass ⟨true, m⟩ rfl hm).2

theorem workerOut_first_pass (pass : List α) (j : Nat) (hj : j < pass.length) :
    workerOut pass (1 + j) = some (WEvent.write (pass.get ⟨j, hj⟩)) := by
  unfold workerOut
  rw [workerRun_first_pass pass j (Nat.le_of_lt hj)]
  exact (workerStep_write pass ⟨true, j⟩ rfl hj).1

theorem filterMap_eq_map_of (l : List β) (f : β → Option γ) (g : β → γ)
    (h : ∀ x ∈ l, f x = some (g x)) : l.filterMap f = l.map g := by
  induction l with
  | nil => rfl
  | cons a t ih =>
    rw [List.filterMap_cons, List.map_cons, h a (by simp),
      ih (fun x hx => h x (by simp [hx]))]

theorem map_getD_range (l : List α) (d : α) :
    (List.range l.length).map (fun j => l.getD j d) = l := by
  apply List.ext_getElem
  · simp
  · intro i h1 h2
    simp [List.getD_eq_getElem?_getD, List.getElem?_eq_getElem h2]

/-- During its first `pass.length + 1` steps the worker writes exactly one
pass of the pipeline, in the pipeline's order (`d` is an arbitrary default
element used only to state indexing totally). -/
theorem workerWrites_first_pass (pass : List α) (d : α) :
    workerWrites pass (pass.length + 1) = pass := by
  unfold workerWrites
  rw [List.range_succ_eq_map, List.filterMap_cons]
  have h0 : workerOut pass 0 = some WEvent.reset := workerOut_zero pass
  rw [h0]
  show List.filterMap _ (List.map Nat.succ (List.range pass.length)) = pass
  rw [List.filterMap_map]
  rw [filterMap_eq_map_of (List.range pass.length) _
    (fun j => pass.getD j d) ?_]
  · exact map_getD_range pass d
  · intro x hx
    have hx' : x < pass.length := List.mem_range.mp hx
    show (match workerOut pass (Nat.succ x) with
      | some (WEvent.write r) => some r
      | _ => none) = _
    rw [show Nat.succ x = 1 + x by omega, workerOut_first_pass pass x hx']
    simp [List.getD_eq_getElem?_getD, List.getElem?_eq_getElem hx']

/-- C2: with `nr_proc = 1` the FIFO transport carries exactly the single
worker's write sequence, so the coordinator's k-th read is the k-th record
the worker wrote; pulling `N = pass.length` records from `get_data` (whose
stored size is `ds.size() = N`) yields exactly the one-pass output of the
pipeline, in the pipeline's native order (`d` is a default element for
total indexing, never selected by the first `N` reads). -/
theorem single_worker_refines_direct_pass (pass : List α) (d : α) :
    getDataList (sizeFromQuery (some pass.length))
      (fun k => (workerWrites pass (pass.length + 1)).getD k d)
      pass.length = directPassRecords pass := by
  show getDataList ((pass.length : Nat) : Int) _ _ = _
  rw [getDataList_le _ pass.length le_rfl]
  rw [workerWrites_first_pass pass d]
  exact map_getD_range pass d

/-! ## Theorems: the bounded queue transport -/

theorem qrun_cap (ops : List (QOp α)) :
    ∀ s : BoundedQueue α, (qrun s ops).cap = s.cap := by
  induction ops with
  | nil => intro s; rfl
  | cons op rest ih =>
    intro s
    cases op with
    | put r =>
      show (match qput s r with
        | some s2 => qrun s2 rest
        | none => qrun s rest).cap = s.cap
      unfold qput
      by_cases h : s.buf.length < s.cap
      · simp only [h, if_true]
        exact ih ⟨s.cap, s.buf ++ [r]⟩
      · simp only [h, if_false]
        exact ih s
    | get =>
      show (match qget s with
        | some p => qrun p.1 rest
        | none => qrun s rest).cap = s.cap
      obtain ⟨c, buf⟩ := s
      cases buf with
      | nil => exact ih ⟨c, []⟩
      | cons a t => exact ih ⟨c, t⟩

theorem qrun_len (ops : List (QOp α)) :
    ∀ s : BoundedQueue α, s.buf.length ≤ s.cap →
      (qrun s ops).buf.length ≤ s.cap := by
  induction ops with
  | nil => intro s h; exact h
  | cons op rest ih =>
    intro s h
    cases op with
    | put r =>
      show (match qput s r with
        | some s2 => qrun s2 rest
        | none => qrun s rest).buf.length ≤ s.cap
      unfold qput
      by_cases hlt : s.buf.length < s.cap
      · simp only [hlt, if_true]
        have := ih ⟨s.cap, s.buf ++ [r]⟩ (by simp; omega)
        simpa using this
      · simp only [hlt, if_false]
        exact ih s h
    | get =>
      show (match qget s with
        | some p => qrun p.1 rest
        | none => qrun s rest).buf.length ≤ s.cap
      obtain ⟨c, buf⟩ := s
      cases buf with
      | nil => exact ih ⟨c, []⟩ h
      | cons a t =>
        have : t.length ≤ c := by
          have := h
          simp at this ⊢
          omega
        exact ih ⟨c, t⟩ this

/-- C8: the transport bound is fixed at construction and never resized,
for both coordinators.  For `PrefetchData` the queue capacity is the
`nr_prefetch` construction argument, it bounds the number of in-flight
records (a `put` into a full queue blocks rather than growing the buffer,
so the buffer never exceeds the bound), and no sequence of later transport
operations ever changes the capacity.  For `PrefetchDataZMQ` the pull-side
high-water mark is set to `5` by `set_hwm(5)` at construction, and the
release routine — the only later operation touching the coordinator's
resources — leaves it unchanged. -/
theorem prefetch_capacity_fixed (α : Type) (sq : Option Nat)
    (nrPrefArg nrProcArg : Nat) (ops : List (QOp α)) :
    (mkPrefetchData α sq nrPrefArg nrProcArg).queue.cap = nrPrefArg ∧
    (qrun (mkPrefetchData α sq nrPrefArg nrProcArg).queue ops).cap = nrPrefArg ∧
    (qrun (mkPrefetchData α sq nrPrefArg nrProcArg).queue ops).buf.length ≤
      nrPrefArg ∧
    (∀ (dstr ustr : String) (c : PrefetchDataZMQM),
      mkPrefetchDataZMQ sq nrProcArg dstr true ustr = Except.ok c →
      c.hwm = 5) ∧
    (∀ z : ZMQRes, (delZMQ z).1.hwm = z.hwm) := by
  refine ⟨rfl, qrun_cap ops _, qrun_len ops _ (Nat.zero_le _), ?_, ?_⟩
  · intro dstr ustr c hc
    simp only [mkPrefetchDataZMQ, if_true, Except.ok.injEq] at hc
    rw [← hc]
  · intro z
    obtain ⟨cc, procs, lok, hw⟩ := z
    cases cc <;> simp [delZMQ]

theorem prefetch_capacity_fixed_witness :
    (qrun (mkPrefetchData Nat (some 4) 2 1).queue
      [QOp.put 7, QOp.put 8, QOp.put 9, QOp.get]).cap = 2 ∧
    (∃ c : PrefetchDataZMQM,
      mkPrefetchDataZMQ (some 4) 1 "/tmp" true "3f2a1b" = Except.ok c ∧
      c.hwm = 5) ∧
    (delZMQ ⟨false, [true], true, 7⟩).1.hwm = 7 :=
  ⟨(prefetch_capacity_fixed Nat (some 4) 2 1
      [QOp.put 7, QOp.put 8, QOp.put 9, QOp.get]).2.1,
   ⟨_, rfl,
    (prefetch_capacity_fixed Nat (some 4) 2 1 []).2.2.2.1 "/tmp" "3f2a1b" _
      rfl⟩,
   (prefetch_capacity_fixed Nat (some 4) 2 1 []).2.2.2.2 ⟨false, [true], true, 7⟩⟩

/-! ## Theorems: ZMQ construction -/

/-- C9: a missing endpoint directory fails the construction-time assert —
a fatal error with no retry, before any worker is started (the error
branch builds no coordinator and starts nothing) — while an existing
directory passes the check and construction completes with its `nr_proc`
workers started. -/
theorem init_asserts_dir_exists (sq : Option Nat) (nrProcArg : Nat)
    (d u : String) (dirIsDir : Bool) :
    (dirIsDir = false →
      mkPrefetchDataZMQ sq nrProcArg d dirIsDir u =
        Except.error InitError.assertionFailed) ∧
    (dirIsDir = true → ∃ c : PrefetchDataZMQM,
      mkPrefetchDataZMQ sq nrProcArg d dirIsDir u = Except.ok c ∧
      c.procsStarted = nrProcArg) := by
  constructor
  · rintro rfl
    rfl
  · rintro rfl
    exact ⟨_, rfl, rfl⟩

theorem init_asserts_dir_exists_witness :
    mkPrefetchDataZMQ (some 5) 2 "/tmp" false "3f2a1bcd" =
      Except.error InitError.assertionFailed ∧
    ∃ c : PrefetchDataZMQM,
      mkPrefetchDataZMQ (some 5) 2 "/tmp" true "3f2a1bcd" = Except.ok c ∧
      c.procsStarted = 2 :=
  ⟨(init_asserts_dir_exists (some 5) 2 "/tmp" "3f2a1bcd" false).1 rfl,
   (init_asserts_dir_exists (some 5) 2 "/tmp" "3f2a1bcd" true).2 rfl⟩

/-- C6 counterexample: the claim "the freshly generated per-instance suffix
guarantees the addresses never collide" is false at a concrete input — two
distinct uuid strings agreeing on their first six characters (possible for
`uuid.uuid1()` values, e.g. equal `time_low` with different node) produce
the very same endpoint address, because only `str(uuid.uuid1())[:6]` enters
the address. -/
theorem pipename_collision :
    ("3f2a1bcd-9e00-11e6-8000-000000000001" : String) ≠
      "3f2a1bcd-9e00-11e6-8000-000000000002" ∧
    mkPipeName "." "3f2a1bcd-9e00-11e6-8000-000000000001" =
      mkPipeName "." "3f2a1bcd-9e00-11e6-8000-000000000002" := by
  constructor
  · decide
  · rfl

/-- C6 amended: two coordinator instances with the same endpoint directory
get distinct addresses exactly in so far as the first six characters of
their generated uuid strings differ — the suffix kept in the address is
`str(uuid.uuid1())[:6]`, so distinct uuids sharing a six-character first
segment collide (see the counterexample). -/
theorem pipename_distinct_of_first_six (d u1 u2 : String)
    (h : u1.take 6 ≠ u2.take 6) : mkPipeName d u1 ≠ mkPipeName d u2 := by
  intro he
  apply h
  unfold mkPipeName at he
  have hd := congrArg String.data he
  simp only [String.data_append] at hd
  exact String.ext (List.append_cancel_left hd)

theorem pipename_distinct_of_first_six_witness :
    ("ab0001-x" : String).take 6 ≠ ("ab0002-x" : String).take 6 ∧
    mkPipeName "/tmp/" "ab0001-x" ≠ mkPipeName "/tmp/" "ab0002-x" :=
  ⟨by decide, pipename_distinct_of_first_six "/tmp/" "ab0001-x" "ab0002-x"
    (by decide)⟩

/-! ## Theorems: the release routine -/

/-- C4: running the release routine twice never errors (it is a total
function of the resource state) and the second run is a no-op — the
resulting state is exactly the state after the first run, and in
particular the context, already closed by then, is not destroyed again
(no `destroy` action occurs on the second run). -/
theorem del_twice_noop (s : ZMQRes) :
    (delZMQ (delZMQ s).1).1 = (delZMQ s).1 ∧
    ∀ n, TAction.destroy n ∉ (delZMQ (delZMQ s).1).2 := by
  obtain ⟨cc, procs, lok, hw⟩ := s
  constructor
  · cases cc <;>
      simp [delZMQ, List.map_map, Function.comp]
  · intro n hn
    cases cc <;>
      simp [delZMQ] at hn

theorem del_twice_noop_witness :
    (delZMQ (delZMQ ⟨false, [true, true], true, 5⟩).1).1 =
      (delZMQ ⟨false, [true, true], true, 5⟩).1 ∧
    TAction.destroy 0 ∉ (delZMQ (delZMQ ⟨false, [true, true], true, 5⟩).1).2 :=
  ⟨(del_twice_noop ⟨false, [true, true], true, 5⟩).1,
   (del_twice_noop ⟨false, [true, true], true, 5⟩).2 0⟩

/-- C5: whatever the logging infrastructure's state `b`, the release
routine completes all its remaining effects: the context ends up
destroyed, every destroy uses zero linger, every worker process is
terminated, and the final state does not depend on whether the logging
calls failed (their failure is swallowed by `try/except: pass`). -/
theorem del_completes_despite_log_failure (s : ZMQRes) (b : Bool) :
    (delZMQ { s with loggerOk := b }).1.contextClosed = true ∧
    (∀ a ∈ (delZMQ { s with loggerOk := b }).1.procsAlive, a = false) ∧
    (s.contextClosed = false →
      TAction.destroy 0 ∈ (delZMQ { s with loggerOk := b }).2) ∧
    (∀ n, TAction.destroy n ∈ (delZMQ { s with loggerOk := b }).2 → n = 0) ∧
    (∀ i, i < s.procsAlive.length →
      TAction.terminate i ∈ (delZMQ { s with loggerOk := b }).2) := by
  obtain ⟨cc, procs, lok, hw⟩ := s
  refine ⟨?_, ?_, ?_, ?_, ?_⟩
  · cases cc <;> simp [delZMQ]
  · intro a ha
    cases cc <;> (simp [delZMQ] at ha; exact ha.2)
  · intro h
    subst h
    simp [delZMQ]
  · intro n hn
    cases cc
    · simp [delZMQ] at hn
      omega
    · simp [delZMQ] at hn
  · intro i hi
    cases cc <;> (simp [delZMQ]; exact hi)

theorem del_completes_despite_log_failure_witness :
    (delZMQ ⟨false, [true, true], false, 5⟩).1.contextClosed = true ∧
    TAction.destroy 0 ∈ (delZMQ ⟨false, [true, true], false, 5⟩).2 ∧
    TAction.terminate 1 ∈ (delZMQ ⟨false, [true, true], false, 5⟩).2 :=
  ⟨(del_completes_despite_log_failure ⟨false, [true, true], true, 5⟩ false).1,
   (del_completes_despite_log_failure ⟨false, [true, true], true, 5⟩ false).2.2.1
     rfl,
   (del_completes_despite_log_failure ⟨false, [true, true], true, 5⟩ false).2.2.2.2
     1 (by decide)⟩

/-! ## Theorems: worker ownership -/

theorem startAllFrom_replicate (seeds : Nat → Nat) (ds : DataFlowM α) :
    ∀ (n k i : Nat),
      (startAllFrom seeds k (List.replicate n ⟨ds⟩))[i]? =
        if i < n then some ⟨resetState (seeds (k + i)) ds⟩ else none := by
  intro n
  induction n with
  | zero => intro k i; simp [startAllFrom]
  | succ m ih =>
    intro k i
    rw [List.replicate_succ]
    show (workerStart (seeds k) ⟨ds⟩ :: _)[i]? = _
    cases i with
    | zero => simp [workerStart]
    | succ j =>
      rw [List.getElem?_cons_succ, ih (k + 1) j]
      by_cases hj : j < m
      · rw [if_pos hj, if_pos (by omega), show k + 1 + j = k + (j + 1) by omega]
      · rw [if_neg hj, if_neg (by omega)]

/-- C7: the coordinator creates exactly `nr_proc` workers, each started
worker owns its own copy of the pipeline (all initially equal to the
coordinator's `ds` value), the copies are unshared — replacing worker
`i`'s state leaves every other worker's state untouched — and the startup
resets act independently: after all workers run their reset, worker `i`
holds exactly its own copy reset with its own seed. -/
theorem workers_own_independent_copies (ds : DataFlowM α) (n : Nat)
    (seeds : Nat → Nat) :
    (spawnProcs ds n).length = n ∧
    (∀ i, i < n → (spawnProcs ds n)[i]? = some ⟨ds⟩) ∧
    (∀ (i j : Nat) (w : PrefetchProcessM α), i ≠ j →
      ((spawnProcs ds n).set i w)[j]? = (spawnProcs ds n)[j]?) ∧
    (∀ i, i < n → (startAll seeds (spawnProcs ds n))[i]? =
      some ⟨resetState (seeds i) ds⟩) := by
  refine ⟨by simp [spawnProcs], ?_, ?_, ?_⟩
  · intro i hi
    simp [spawnProcs, List.getElem?_replicate, hi]
  · intro i j w hij
    exact List.getElem?_set_ne hij
  · intro i hi
    unfold startAll spawnProcs
    rw [startAllFrom_replicate seeds ds n 0 i, if_pos hi]
    simp

theorem workers_own_independent_copies_witness :
    (spawnProcs (⟨0, [7]⟩ : DataFlowM Nat) 3).length = 3 ∧
    (spawnProcs (⟨0, [7]⟩ : DataFlowM Nat) 3)[1]? = some ⟨⟨0, [7]⟩⟩ ∧
    ((spawnProcs (⟨0, [7]⟩ : DataFlowM Nat) 3).set 0 ⟨⟨9, [7]⟩⟩)[1]? =
      (spawnProcs (⟨0, [7]⟩ : DataFlowM Nat) 3)[1]? ∧
    (startAll (fun i => 100 + i) (spawnProcs (⟨0, [7]⟩ : DataFlowM Nat) 3))[2]? =
      some ⟨⟨102, [7]⟩⟩ :=
  ⟨(workers_own_independent_copies ⟨0, [7]⟩ 3 (fun i => 100 + i)).1,
   (workers_own_independent_copies ⟨0, [7]⟩ 3 (fun i => 100 + i)).2.1 1
     (by decide),
   (workers_own_independent_copies ⟨0, [7]⟩ 3 (fun i => 100 + i)).2.2.1 0 1
     ⟨⟨9, [7]⟩⟩ (by decide),
   (workers_own_independent_copies ⟨0, [7]⟩ 3 (fun i => 100 + i)).2.2.2 2
     (by decide)⟩

end Prefetch
